import Mathlib

/-!
Verification development for the Binance market-data recorder repository.

The Go sources are shallowly embedded: pure functions become Lean
functions, the stateful event loops become explicit step functions over
small state structures, `int64` update identifiers become `Int`, file
system and parquet-encoder effects are made explicit (the file system is
a list of existing paths, encoder effects are an explicit behaviour
record, and everything a function did to its file is recorded in the
returned state).
-/

/- ### Go `time.Time` model

A Go `time.Time` carries an absolute instant together with a location.
`Format` renders the wall clock of the instant in that location, i.e. of
`unixSec + offset`; `UTC()` replaces the location by UTC (offset 0)
without changing the instant. -/

/-- Model of Go `time.Time`: an absolute instant (seconds since the Unix
epoch) plus the UTC offset, in seconds, of the location the value
carries. -/
structure GoTime where
  unixSec : Int
  offset : Int
deriving DecidableEq

/-- Go `t.UTC()`: same instant, location replaced by UTC. -/
def goTimeUTC (t : GoTime) : GoTime :=
  { t with offset := 0 }

/-- Civil date (year, month, day) of a day count relative to 1970-01-01,
via the standard Gregorian era decomposition. -/
def civilFromDays (z0 : Int) : Int × Int × Int :=
  let z := z0 + 719468
  let era := z.fdiv 146097
  let doe := z - era * 146097
  let yoe := (doe - doe / 1460 + doe / 36524 - doe / 146096) / 365
  let y := yoe + era * 400
  let doy := doe - (365 * yoe + yoe / 4 - yoe / 100)
  let mp := (5 * doy + 2) / 153
  let d := doy - (153 * mp + 2) / 5 + 1
  let m := mp + (if mp < 10 then 3 else -9)
  (y + (if m ≤ 2 then 1 else 0), m, d)

/-- Zero-pad a (month/day/hour/minute/second) number to two digits. -/
def pad2 (n : Int) : String :=
  if 0 ≤ n ∧ n < 10 then "0" ++ toString n else toString n

/-- Zero-pad a year number to four digits. -/
def pad4 (n : Int) : String :=
  if 0 ≤ n ∧ n < 10 then "000" ++ toString n
  else if 0 ≤ n ∧ n < 100 then "00" ++ toString n
  else if 0 ≤ n ∧ n < 1000 then "0" ++ toString n
  else toString n

/-- Go `t.Format "2006-01-02"`: the wall-clock date of `t` in the
location `t` carries. -/
def goFormatYYYYMMDD (t : GoTime) : String :=
  let wall := t.unixSec + t.offset
  let days := wall.fdiv 86400
  let ymd := civilFromDays days
  pad4 ymd.1 ++ "-" ++ pad2 ymd.2.1 ++ "-" ++ pad2 ymd.2.2

/-- Go `t.Format "15:04:05"`: the wall-clock time of day of `t` in the
location `t` carries. -/
def goFormatHHMMSS (t : GoTime) : String :=
  let wall := t.unixSec + t.offset
  let s := wall.emod 86400
  pad2 (s / 3600) ++ ":" ++ pad2 (s / 60 % 60) ++ ":" ++ pad2 (s % 60)

/-- Go `t.Format "2006-01-02 15:04:05"`. -/
def goFormatDateTime (t : GoTime) : String :=
  goFormatYYYYMMDD t ++ " " ++ goFormatHHMMSS t

/- ### fileutil.go and logger.go: the pure helpers -/

/-- `BuildFileName` from fileutil.go: file name
`<instrument>_<dataType>_<YYYY-MM-DD>.parquet`, where the date is the
UTC date of `t` (the source formats `t.UTC()`). -/
def BuildFileName (dataType : String) (instrument : String) (t : GoTime) : String :=
  let utcDate := goFormatYYYYMMDD (goTimeUTC t)
  instrument ++ "_" ++ dataType ++ "_" ++ utcDate ++ ".parquet"

/-- `FileExists` from fileutil.go, over the explicit file-system model:
the file system is the list of paths that exist (`os.Stat` succeeds
exactly on those). -/
def FileExists (fs : List String) (filePath : String) : Bool :=
  fs.contains filePath

/-- `FormatLog` from logger.go: `"[<ts.Format "2006-01-02 15:04:05">]
LEVEL: msg"`. The source formats `ts` as given, in the location `ts`
carries. -/
def FormatLog (level message : String) (ts : GoTime) : String :=
  "[" ++ goFormatDateTime ts ++ "] " ++ level ++ ": " ++ message

/- ### binance_types.go: market-data types (the fields the verified
code reads; `int64` becomes `Int`) -/

/-- `PriceLevel` from binance_types.go: one order-book level, price and
quantity kept as decimal strings. -/
structure PriceLevel where
  Price : String
  Quantity : String
deriving DecidableEq

/-- `OrderBookDiff` from binance_types.go: one incremental order-book
update covering update identifiers `[FirstUpdateID, FinalUpdateID]`. -/
structure OrderBookDiff where
  EventType : String
  EventTime : Int
  Symbol : String
  FirstUpdateID : Int
  FinalUpdateID : Int
  Bids : List PriceLevel
  Asks : List PriceLevel
deriving DecidableEq

/-- `OrderBookSnapshot` from binance_types.go: a full snapshot with its
`lastUpdateId` anchor. -/
structure OrderBookSnapshot where
  LastUpdateID : Int
  Bids : List PriceLevel
  Asks : List PriceLevel
deriving DecidableEq

/-- `PriceLevel.UnmarshalJSON` from binance_types.go, after the generic
JSON array decode: rejects any array whose length is not exactly 2,
otherwise takes element 0 as price and element 1 as quantity. -/
def PriceLevel.unmarshalJSON (arr : List String) : Except String PriceLevel :=
  if arr.length ≠ 2 then
    Except.error ("unexpected length for PriceLevel: " ++ toString arr.length)
  else
    Except.ok { Price := arr.getD 0 "", Quantity := arr.getD 1 "" }

/- ### binance_rest.go: snapshot parsing (after the generic JSON decode
into `orderBookSnapshotResponse`) -/

/-- `orderBookSnapshotResponse` from binance_rest.go: the decoded JSON
shape of the REST depth endpoint. -/
structure orderBookSnapshotResponse where
  LastUpdateID : Int
  Bids : List (List String)
  Asks : List (List String)
deriving DecidableEq

/-- The entry-conversion loops of `parseOrderBookSnapshot`: stop with
`errMsg` at the first entry shorter than 2, otherwise take elements 0
and 1 of each entry (extra elements are ignored). -/
def convertLevels (errMsg : String) : List (List String) → Except String (List PriceLevel)
  | [] => Except.ok []
  | entry :: rest =>
    if entry.length < 2 then Except.error errMsg
    else
      match convertLevels errMsg rest with
      | Except.error e => Except.error e
      | Except.ok tail =>
        Except.ok ({ Price := entry.getD 0 "", Quantity := entry.getD 1 "" } :: tail)

/-- `parseOrderBookSnapshot` from binance_rest.go, after the generic
JSON decode: validates every bid and ask entry has at least 2 elements
("malformed bid data" / "malformed ask data" otherwise) and builds the
snapshot. -/
def parseOrderBookSnapshot (resp : orderBookSnapshotResponse) : Except String OrderBookSnapshot :=
  match convertLevels "malformed bid data" resp.Bids with
  | Except.error e => Except.error e
  | Except.ok bids =>
    match convertLevels "malformed ask data" resp.Asks with
    | Except.error e => Except.error e
    | Except.ok asks =>
      Except.ok { LastUpdateID := resp.LastUpdateID, Bids := bids, Asks := asks }

/-- `true` exactly on `Except.ok`. -/
def isOkB {ε α : Type} : Except ε α → Bool
  | Except.ok _ => true
  | Except.error _ => false

/- ### subscription.go: the reconciler decision function and the
`SubscribeOrderBookDiff` event loop -/

/-- `ProcessOrderBookDiffMessage` from subscription.go, with the source
control flow linearized: the two early gap returns, then the common
fall-through accept. Returns (record, new lastProcessedId, gap). -/
def ProcessOrderBookDiffMessage (diff : OrderBookDiff) (lastSnapshotId lastProcessedId : Int) :
    Bool × Int × Bool :=
  if diff.FinalUpdateID ≤ lastSnapshotId then
    (false, lastProcessedId, false)
  else if lastProcessedId = lastSnapshotId ∧ diff.FirstUpdateID > lastSnapshotId + 1 then
    (false, lastProcessedId, true)
  else if lastProcessedId ≠ lastSnapshotId ∧ diff.FirstUpdateID ≠ lastProcessedId + 1 then
    (false, lastProcessedId, true)
  else
    (true, diff.FinalUpdateID, false)

/-- Modelled from the spec: the three-case `decide` function of §4.3,
written exactly as the spec states it (nested cases). -/
def decideSpec (diff : OrderBookDiff) (lastSnapshotId lastProcessedId : Int) :
    Bool × Int × Bool :=
  if diff.FinalUpdateID ≤ lastSnapshotId then (false, lastProcessedId, false)
  else if lastProcessedId = lastSnapshotId then
    if diff.FirstUpdateID > lastSnapshotId + 1 then (false, lastProcessedId, true)
    else (true, diff.FinalUpdateID, false)
  else
    if diff.FirstUpdateID ≠ lastProcessedId + 1 then (false, lastProcessedId, true)
    else (true, diff.FinalUpdateID, false)

/-- Repeated application of the decision function from a fixed snapshot
anchor `s`: processes the diffs in order, threading `lastProcessedId`
exactly as the decision function returns it, and collects the accepted
diffs. Returns (final lastProcessedId, accepted diffs). -/
def reconcileAccepted (s : Int) (lastProcessedId : Int) :
    List OrderBookDiff → Int × List OrderBookDiff
  | [] => (lastProcessedId, [])
  | d :: rest =>
    match ProcessOrderBookDiffMessage d s lastProcessedId with
    | (record, newProcessedId, _gap) =>
      let tail := reconcileAccepted s newProcessedId rest
      (tail.1, if record then d :: tail.2 else tail.2)

/-- Contiguity relation between consecutive accepted diffs. -/
def diffContiguous (a b : OrderBookDiff) : Prop :=
  b.FirstUpdateID = a.FinalUpdateID + 1

/-- The mutable state of the `SubscribeOrderBookDiff` loop. -/
structure LoopState where
  lastSnapshotId : Int
  lastProcessedId : Int
deriving DecidableEq

/-- One event received by the `SubscribeOrderBookDiff` select loop. -/
inductive RecEvent where
  | snap (snapshot : OrderBookSnapshot)
  | diff (diff : OrderBookDiff)
deriving DecidableEq

/-- One iteration of the `SubscribeOrderBookDiff` loop body from
subscription.go: returns the new state, the diffs written to the diff
recorder this iteration, and the number of `snapshotRequest()` calls
this iteration. -/
def subscribeStep (st : LoopState) (ev : RecEvent) : LoopState × List OrderBookDiff × Nat :=
  match ev with
  | RecEvent.snap snapshot =>
    ({ lastSnapshotId := snapshot.LastUpdateID, lastProcessedId := snapshot.LastUpdateID }, [], 0)
  | RecEvent.diff diff =>
    if st.lastSnapshotId = 0 then (st, [], 0)
    else
      match ProcessOrderBookDiffMessage diff st.lastSnapshotId st.lastProcessedId with
      | (recordMsg, newProcessedId, gapDetected) =>
        if gapDetected then ({ lastSnapshotId := 0, lastProcessedId := 0 }, [], 1)
        else if recordMsg then
          ({ lastSnapshotId := st.lastSnapshotId, lastProcessedId := newProcessedId }, [diff], 0)
        else (st, [], 0)

/-- Several iterations of the `SubscribeOrderBookDiff` loop: final
state, all diffs written in order, and total `snapshotRequest()`
calls. -/
def subscribeRun (st : LoopState) : List RecEvent → LoopState × List OrderBookDiff × Nat
  | [] => (st, [], 0)
  | ev :: rest =>
    match subscribeStep st ev with
    | (st1, written, reqs) =>
      match subscribeRun st1 rest with
      | (stF, writtenRest, reqsRest) => (stF, written ++ writtenRest, reqs + reqsRest)

/- ### The Recorder (the parquet recorder defined alongside fileutil.go)

The external collaborators are made explicit: the file system is the
list of existing paths; the parquet encoder and the file handle are
modelled by an `EncBehavior` oracle saying which operations fail, and by
per-file bookkeeping inside the `Recorder` state (`encoded` = records
passed to `pw.Write` for the current file, `finalized` = `pw.WriteStop`
has written the footer, `fileClosed` = `localFile.Close` was called).
Errors are returned alongside the state, mirroring the Go receiver
methods that mutate in place and return an `error`. -/

/-- Failure behaviour of the parquet encoder and the file handle:
whether `pw.Write` fails on a given record, whether `pw.WriteStop`
fails, and whether `localFile.Close` fails. -/
structure EncBehavior (α : Type) where
  writeErr : α → Bool
  stopErr : Bool
  closeErr : Bool

/-- `Recorder` from the recorder source: the recorder state, plus the
explicit bookkeeping of what was done to the currently open file. -/
structure Recorder (α : Type) where
  instrument : String
  dataType : String
  batchSize : Nat
  currentDate : String
  filePath : String
  batchBuffer : List α
  encoded : List α
  finalized : Bool
  fileClosed : Bool
deriving DecidableEq

/-- The loop inside `Recorder.flushBuffer`: pass buffered records to
`pw.Write` in order, stopping at the first failure. Returns the records
successfully encoded and the error, if any. -/
def flushLoop {α : Type} (env : EncBehavior α) : List α → List α × Option String
  | [] => ([], none)
  | rec :: rest =>
    if env.writeErr rec then ([], some "parquet write error")
    else
      match flushLoop env rest with
      | (written, err) => (rec :: written, err)

/-- `Recorder.flushBuffer`: write all buffered records to the parquet
writer in insertion order, then reset the buffer; on a write failure the
error is returned and the buffer is NOT cleared. -/
def Recorder.flushBuffer {α : Type} (env : EncBehavior α) (r : Recorder α) :
    Recorder α × Option String :=
  match flushLoop env r.batchBuffer with
  | (written, some e) => ({ r with encoded := r.encoded ++ written }, some e)
  | (written, none) => ({ r with encoded := r.encoded ++ written, batchBuffer := [] }, none)

/-- The tail of `Recorder.Write` after the rotation check: append the
record to the batch buffer and flush once the buffer has reached the
batch size. -/
def Recorder.writeAppend {α : Type} (env : EncBehavior α) (fs : List String) (r : Recorder α)
    (record : α) : Recorder α × List String × Option String :=
  let r1 := { r with batchBuffer := r.batchBuffer ++ [record] }
  if r.batchSize ≤ r1.batchBuffer.length then
    match Recorder.flushBuffer env r1 with
    | (r2, err) => (r2, fs, err)
  else (r1, fs, none)

/-- `Recorder.rotate`: flush, finalize (`pw.WriteStop`), close the
current file, then refuse if the new day's target path already exists,
otherwise open the new file with a fresh writer and an empty buffer.
Each early `return err` of the source keeps the state reached so far. -/
def Recorder.rotate {α : Type} (env : EncBehavior α) (fs : List String) (r : Recorder α)
    (newTime : GoTime) : Recorder α × List String × Option String :=
  match Recorder.flushBuffer env r with
  | (r1, some e) => (r1, fs, some e)
  | (r1, none) =>
    if env.stopErr then (r1, fs, some "parquet write stop error")
    else
      let r2 := { r1 with finalized := true, fileClosed := true }
      if env.closeErr then (r2, fs, some "file close error")
      else
        let newDate := goFormatYYYYMMDD newTime
        let newFileName := BuildFileName r.dataType r.instrument newTime
        if FileExists fs newFileName then
          (r2, fs, some ("file " ++ newFileName ++ " already exists, not resuming recording"))
        else
          ({ instrument := r.instrument, dataType := r.dataType, batchSize := r.batchSize,
             currentDate := newDate, filePath := newFileName, batchBuffer := [],
             encoded := [], finalized := false, fileClosed := false },
           newFileName :: fs, none)

/-- `Recorder.Write`: rotate first if the UTC day of `now` differs from
the stored date (propagating a rotation error), then append to the
batch buffer and flush once the batch size is reached. -/
def Recorder.Write {α : Type} (env : EncBehavior α) (fs : List String) (r : Recorder α)
    (record : α) (now : GoTime) : Recorder α × List String × Option String :=
  let utc := goTimeUTC now
  let currentDay := goFormatYYYYMMDD utc
  if currentDay ≠ r.currentDate then
    match Recorder.rotate env fs r utc with
    | (r1, fs1, some e) => (r1, fs1, some e)
    | (r1, fs1, none) => Recorder.writeAppend env fs1 r1 record
  else Recorder.writeAppend env fs r record

/-- `Recorder.Close`: flush, finalize (`pw.WriteStop`), then close the
file; each of the first two steps returns its error early, exactly as
in the source. -/
def Recorder.Close {α : Type} (env : EncBehavior α) (r : Recorder α) :
    Recorder α × Option String :=
  match Recorder.flushBuffer env r with
  | (r1, some e) => (r1, some e)
  | (r1, none) =>
    if env.stopErr then (r1, some "parquet write stop error")
    else
      ({ r1 with finalized := true, fileClosed := true },
       if env.closeErr then some "file close error" else none)

/-- `NewRecorder`: build the file name from the current UTC time,
refuse if the path already exists (file system unchanged), otherwise
create the file and the fresh recorder state. -/
def NewRecorder (α : Type) (fs : List String) (instrument dataType : String) (batchSize : Nat)
    (now : GoTime) : Except String (Recorder α) × List String :=
  let utc := goTimeUTC now
  let currentDate := goFormatYYYYMMDD utc
  let fileName := BuildFileName dataType instrument utc
  if FileExists fs fileName then
    (Except.error ("file " ++ fileName ++ " already exists, not resuming recording"), fs)
  else
    (Except.ok { instrument := instrument, dataType := dataType, batchSize := batchSize,
                 currentDate := currentDate, filePath := fileName, batchBuffer := [],
                 encoded := [], finalized := false, fileClosed := false },
     fileName :: fs)

/-- A sequence of `Recorder.Write` calls, each with its own `now`;
stops at the first failing call, returning its error. -/
def writeAll {α : Type} (env : EncBehavior α) :
    List (GoTime × α) → List String → Recorder α → Recorder α × List String × Option String
  | [], fs, r => (r, fs, none)
  | item :: rest, fs, r =>
    match Recorder.Write env fs r item.2 item.1 with
    | (r1, fs1, some e) => (r1, fs1, some e)
    | (r1, fs1, none) => writeAll env rest fs1 r1

/- ### Concrete values used in witnesses -/

/-- A concrete diff with the given update-identifier range. -/
def mkDiff (firstU finalU : Int) : OrderBookDiff :=
  { EventType := "depthUpdate", EventTime := 0, Symbol := "BTCUSDT",
    FirstUpdateID := firstU, FinalUpdateID := finalU, Bids := [], Asks := [] }

/- ### Shared lemmas about the decision function -/

/-- The decision function returns one of exactly three shapes: stale
reject, gap reject (state unchanged), or accept (of a diff beyond the
anchor). -/
lemma process_cases (d : OrderBookDiff) (ls lp : Int) :
    ProcessOrderBookDiffMessage d ls lp = (false, lp, false) ∧ d.FinalUpdateID ≤ ls
    ∨ ProcessOrderBookDiffMessage d ls lp = (false, lp, true)
    ∨ ProcessOrderBookDiffMessage d ls lp = (true, d.FinalUpdateID, false)
        ∧ ls < d.FinalUpdateID := by
  unfold ProcessOrderBookDiffMessage
  split_ifs with h1 h2 h3 <;> simp_all

/- ### Claim theorems: reconciler -/

/-- Claim C1: for every diff and state, `ProcessOrderBookDiffMessage`
returns exactly what the three-case decide function of the spec
prescribes. -/
theorem claim_C1 (diff : OrderBookDiff) (lastSnapshotId lastProcessedId : Int) :
    ProcessOrderBookDiffMessage diff lastSnapshotId lastProcessedId
      = decideSpec diff lastSnapshotId lastProcessedId := by
  unfold ProcessOrderBookDiffMessage decideSpec
  split_ifs <;> first | rfl | (exfalso; omega)

/-- Claim C4: an anchored loop state rejects a stale diff
(`diff.u ≤ lastSnapshotId`) with nothing written, no snapshot request,
and the state unchanged. -/
theorem claim_C4 (st : LoopState) (diff : OrderBookDiff)
    (hAnchored : st.lastSnapshotId ≠ 0)
    (hStale : diff.FinalUpdateID ≤ st.lastSnapshotId) :
    subscribeStep st (RecEvent.diff diff) = (st, [], 0) := by
  simp [subscribeStep, ProcessOrderBookDiffMessage, hAnchored, hStale]

/-- Witness for C4 at the spec scenario: anchor 100, diff `{U:100,u:100}`. -/
theorem claim_C4_witness :
    subscribeStep { lastSnapshotId := 100, lastProcessedId := 100 }
        (RecEvent.diff (mkDiff 100 100))
      = ({ lastSnapshotId := 100, lastProcessedId := 100 }, [], 0) :=
  claim_C4 _ _ (by decide) (by decide)

/-- Diffs received while the state is unanchored (0) are all dropped:
nothing written, no snapshot request, state stays 0. -/
lemma subscribeRun_unanchored (diffs : List OrderBookDiff) :
    subscribeRun { lastSnapshotId := 0, lastProcessedId := 0 } (diffs.map RecEvent.diff)
      = ({ lastSnapshotId := 0, lastProcessedId := 0 }, [], 0) := by
  induction diffs with
  | nil => rfl
  | cons d rest ih => simp [subscribeRun, subscribeStep, ih]

/-- Claim C3: a gap-triggering diff causes exactly one snapshot
request, resets both state fields to 0 and is not written; while
unanchored every diff is dropped until a snapshot re-anchors; and every
rejected diff is stale or gap-declared. -/
theorem claim_C3 (st : LoopState) (d : OrderBookDiff) (diffs : List OrderBookDiff)
    (snapshot : OrderBookSnapshot) :
    (st.lastSnapshotId ≠ 0 →
      (ProcessOrderBookDiffMessage d st.lastSnapshotId st.lastProcessedId).2.2 = true →
      subscribeStep st (RecEvent.diff d) = ({ lastSnapshotId := 0, lastProcessedId := 0 }, [], 1))
    ∧ subscribeRun { lastSnapshotId := 0, lastProcessedId := 0 } (diffs.map RecEvent.diff)
        = ({ lastSnapshotId := 0, lastProcessedId := 0 }, [], 0)
    ∧ subscribeStep st (RecEvent.snap snapshot)
        = ({ lastSnapshotId := snapshot.LastUpdateID,
             lastProcessedId := snapshot.LastUpdateID }, [], 0)
    ∧ (st.lastSnapshotId ≠ 0 →
        (subscribeStep st (RecEvent.diff d)).2.1 = [] →
        d.FinalUpdateID ≤ st.lastSnapshotId
          ∨ (ProcessOrderBookDiffMessage d st.lastSnapshotId st.lastProcessedId).2.2 = true) := by
  refine ⟨?_, subscribeRun_unanchored diffs, rfl, ?_⟩
  · intro h hgap
    rcases process_cases d st.lastSnapshotId st.lastProcessedId with ⟨hp, _⟩ | hp | ⟨hp, _⟩
    · rw [hp] at hgap; simp at hgap
    · simp [subscribeStep, h, hp]
    · rw [hp] at hgap; simp at hgap
  · intro h hw
    rcases process_cases d st.lastSnapshotId st.lastProcessedId with ⟨hp, hstale⟩ | hp | ⟨hp, _⟩
    · exact Or.inl hstale
    · right; rw [hp]
    · simp [subscribeStep, h, hp] at hw

/-- Witness for C3 at the spec gap scenario: anchor 100, first diff
`{U:101,u:101}` accepted, second diff `{U:103,u:103}` triggers the gap. -/
theorem claim_C3_witness :
    subscribeStep { lastSnapshotId := 100, lastProcessedId := 101 }
        (RecEvent.diff (mkDiff 103 103))
      = ({ lastSnapshotId := 0, lastProcessedId := 0 }, [], 1) :=
  (claim_C3 { lastSnapshotId := 100, lastProcessedId := 101 } (mkDiff 103 103) []
      { LastUpdateID := 0, Bids := [], Asks := [] }).1 (by decide) (by decide)

/-- Invariant of repeated decision-function application with anchor `s`:
every accepted diff is beyond the anchor, the accepted diffs are
contiguous, and the first accepted diff starts at `lp + 1` (when
continuing) or covers `s + 1` (when fresh, `lp = s`). -/
lemma reconcile_inv (s : Int) (diffs : List OrderBookDiff) :
    ∀ lp : Int,
      (∀ d ∈ (reconcileAccepted s lp diffs).2, s < d.FinalUpdateID)
      ∧ List.Chain' diffContiguous (reconcileAccepted s lp diffs).2
      ∧ (∀ d, (reconcileAccepted s lp diffs).2.head? = some d →
          (lp = s → d.FirstUpdateID ≤ s + 1 ∧ s + 1 ≤ d.FinalUpdateID)
          ∧ (lp ≠ s → d.FirstUpdateID = lp + 1)) := by
  induction diffs with
  | nil => intro lp; simp [reconcileAccepted]
  | cons d rest ih =>
    intro lp
    by_cases h1 : d.FinalUpdateID ≤ s
    · have hp : ProcessOrderBookDiffMessage d s lp = (false, lp, false) := by
        simp [ProcessOrderBookDiffMessage, h1]
      simpa [reconcileAccepted, hp] using ih lp
    · by_cases h2 : lp = s
      · subst h2
        by_cases h3 : d.FirstUpdateID > lp + 1
        · have hp : ProcessOrderBookDiffMessage d lp lp = (false, lp, true) := by
            simp [ProcessOrderBookDiffMessage, h1, h3]
          simpa [reconcileAccepted, hp] using ih lp
        · have hp : ProcessOrderBookDiffMessage d lp lp = (true, d.FinalUpdateID, false) := by
            simp [ProcessOrderBookDiffMessage, h1, h3]
          obtain ⟨ihAll, ihChain, ihHead⟩ := ih d.FinalUpdateID
          have hne : d.FinalUpdateID ≠ lp := by omega
          refine ⟨?_, ?_, ?_⟩
          · intro x hx
            simp [reconcileAccepted, hp] at hx
            rcases hx with rfl | hx
            · omega
            · exact ihAll x hx
          · simp only [reconcileAccepted, hp]
            refine List.chain'_cons'.mpr ⟨?_, ihChain⟩
            intro y hy
            exact ((ihHead y hy).2 hne)
          · intro x hx
            simp [reconcileAccepted, hp] at hx
            subst hx
            exact ⟨fun _ => by omega, fun habs => absurd rfl habs⟩
      · by_cases h3 : d.FirstUpdateID = lp + 1
        · have hp : ProcessOrderBookDiffMessage d s lp = (true, d.FinalUpdateID, false) := by
            simp [ProcessOrderBookDiffMessage, h1, h2, h3]
          obtain ⟨ihAll, ihChain, ihHead⟩ := ih d.FinalUpdateID
          have hne : d.FinalUpdateID ≠ s := by omega
          refine ⟨?_, ?_, ?_⟩
          · intro x hx
            simp [reconcileAccepted, hp] at hx
            rcases hx with rfl | hx
            · omega
            · exact ihAll x hx
          · simp only [reconcileAccepted, hp]
            refine List.chain'_cons'.mpr ⟨?_, ihChain⟩
            intro y hy
            exact ((ihHead y hy).2 hne)
          · intro x hx
            simp [reconcileAccepted, hp] at hx
            subst hx
            exact ⟨fun habs => absurd habs h2, fun _ => h3⟩
        · have hp : ProcessOrderBookDiffMessage d s lp = (false, lp, true) := by
            simp [ProcessOrderBookDiffMessage, h1, h2, h3]
          simpa [reconcileAccepted, hp] using ih lp

/-- Claim C2: from anchor `s` and state `(s, s)`, the accepted
subsequence is contiguous, its first element `d` satisfies
`d.U ≤ s + 1 ≤ d.u`, and every accepted diff has `u > s`. -/
theorem claim_C2 (s : Int) (diffs : List OrderBookDiff) :
    (∀ d ∈ (reconcileAccepted s s diffs).2, s < d.FinalUpdateID)
    ∧ List.Chain' diffContiguous (reconcileAccepted s s diffs).2
    ∧ (∀ d, (reconcileAccepted s s diffs).2.head? = some d →
        d.FirstUpdateID ≤ s + 1 ∧ s + 1 ≤ d.FinalUpdateID) := by
  obtain ⟨h1, h2, h3⟩ := reconcile_inv s diffs s
  exact ⟨h1, h2, fun d hd => (h3 d hd).1 rfl⟩

/-- Witness for C2 at the spec scenario: anchor 100, diffs
`{U:101,u:101}` and `{U:102,u:103}`; the first accepted diff covers
`s + 1 = 101`. -/
theorem claim_C2_witness :
    (mkDiff 101 101).FirstUpdateID ≤ 100 + 1 ∧ 100 + 1 ≤ (mkDiff 101 101).FinalUpdateID :=
  (claim_C2 100 [mkDiff 101 101, mkDiff 102 103]).2.2 (mkDiff 101 101) (by decide)

/- ### Claim theorems: recorder batching (C5) -/

/-- A freshly opened recorder: empty batch buffer, nothing encoded. -/
def initRecorder (α : Type) (instrument dataType filePath currentDate : String)
    (batchSize : Nat) : Recorder α :=
  { instrument := instrument, dataType := dataType, batchSize := batchSize,
    currentDate := currentDate, filePath := filePath, batchBuffer := [],
    encoded := [], finalized := false, fileClosed := false }

/-- When no record makes the encoder fail, the flush loop encodes the
whole buffer and reports no error. -/
lemma flushLoop_clean {α : Type} (env : EncBehavior α) (l : List α)
    (h : ∀ x ∈ l, env.writeErr x = false) : flushLoop env l = (l, none) := by
  induction l with
  | nil => rfl
  | cons a rest ih =>
    have ha : env.writeErr a = false := h a (List.mem_cons_self a rest)
    simp [flushLoop, ha, ih (fun x hx => h x (List.mem_cons_of_mem a hx))]

/-- When no buffered record makes the encoder fail, `flushBuffer` moves
the whole buffer to the encoder, in order, and clears it. -/
lemma flushBuffer_clean {α : Type} (env : EncBehavior α) (r : Recorder α)
    (h : ∀ x ∈ r.batchBuffer, env.writeErr x = false) :
    Recorder.flushBuffer env r
      = ({ r with encoded := r.encoded ++ r.batchBuffer, batchBuffer := [] }, none) := by
  simp [Recorder.flushBuffer, flushLoop_clean env _ h]

/-- `n - n % B` is the largest multiple of `B` at most `n`. -/
lemma sub_mod_eq_div_mul (n B : Nat) : n - n % B = n / B * B := by
  calc n - n % B = B * (n / B) + n % B - n % B := by rw [Nat.div_add_mod]
    _ = B * (n / B) := by rw [Nat.add_sub_cancel]
    _ = n / B * B := Nat.mul_comm _ _

/-- One successful `Recorder.Write` step unfolds a `writeAll` run. -/
lemma writeAll_cons_ok {α : Type} (env : EncBehavior α) (it : GoTime × α)
    (rest : List (GoTime × α)) (fs fs1 : List String) (r r1 : Recorder α)
    (h : Recorder.Write env fs r it.2 it.1 = (r1, fs1, none)) :
    writeAll env (it :: rest) fs r = writeAll env rest fs1 r1 := by
  have hstep : writeAll env (it :: rest) fs r
      = (match Recorder.Write env fs r it.2 it.1 with
         | (r2, fs2, some e) => (r2, fs2, some e)
         | (r2, fs2, none) => writeAll env rest fs2 r2) := rfl
  rw [hstep, h]

/-- Invariant of a run of same-day, error-free `Recorder.Write` calls:
no error, no file-system change, the records reach the encoder in
insertion order with the remainder in the buffer, and the buffer length
follows the running count modulo the batch size. -/
lemma writeAll_sameDay {α : Type} (env : EncBehavior α) (B : Nat) (D : String)
    (henc : ∀ x, env.writeErr x = false) :
    ∀ (items : List (GoTime × α)) (fs : List String) (r : Recorder α),
      r.batchSize = B → r.currentDate = D → r.batchBuffer.length < B →
      (∀ it ∈ items, goFormatYYYYMMDD (goTimeUTC it.1) = D) →
      ∃ rOut, writeAll env items fs r = (rOut, fs, none)
        ∧ rOut.batchSize = B ∧ rOut.currentDate = D
        ∧ rOut.encoded ++ rOut.batchBuffer = r.encoded ++ r.batchBuffer ++ items.map Prod.snd
        ∧ rOut.batchBuffer.length = (r.batchBuffer.length + items.length) % B := by
  intro items
  induction items with
  | nil =>
    intro fs r hB1 hD hlen _
    exact ⟨r, rfl, hB1, hD, by simp, by simpa using (Nat.mod_eq_of_lt hlen).symm⟩
  | cons it rest ih =>
    intro fs r hB1 hD hlen hday
    have hdayit : goFormatYYYYMMDD (goTimeUTC it.1) = D := hday it (List.mem_cons_self _ _)
    have hcond : goFormatYYYYMMDD (goTimeUTC it.1) = r.currentDate := by rw [hdayit, hD]
    by_cases hfull : B ≤ r.batchBuffer.length + 1
    · have hflush := flushBuffer_clean env
        { r with batchBuffer := r.batchBuffer ++ [it.2] } (fun x _ => henc x)
      simp only at hflush
      have hfull2 : r.batchSize ≤ r.batchBuffer.length + 1 := by omega
      have hw : Recorder.Write env fs r it.2 it.1
          = ({ r with
                encoded := r.encoded ++ (r.batchBuffer ++ [it.2]),
                batchBuffer := [] }, fs, none) := by
        simp [Recorder.Write, Recorder.writeAppend, hcond, hfull2, hflush]
      obtain ⟨rOut, heq, hb, hd, hcat, hmod⟩ := ih fs
        { r with encoded := r.encoded ++ (r.batchBuffer ++ [it.2]), batchBuffer := [] }
        hB1 hD (by simp; omega) (fun x hx => hday x (List.mem_cons_of_mem _ hx))
      refine ⟨rOut, ?_, hb, hd, ?_, ?_⟩
      · exact (writeAll_cons_ok env it rest fs fs r _ hw).trans heq
      · rw [hcat]
        simp [List.append_assoc]
      · rw [hmod]
        have h2 : r.batchBuffer.length + (rest.length + 1) = B + rest.length := by omega
        simp only [List.length_cons]
        rw [show ({ r with
              encoded := r.encoded ++ (r.batchBuffer ++ [it.2]),
              batchBuffer := [] } : Recorder α).batchBuffer.length = 0 from rfl]
        rw [h2, Nat.add_mod_left, Nat.zero_add]
    · have hfull2 : ¬ r.batchSize ≤ r.batchBuffer.length + 1 := by omega
      have hw : Recorder.Write env fs r it.2 it.1
          = ({ r with batchBuffer := r.batchBuffer ++ [it.2] }, fs, none) := by
        simp [Recorder.Write, Recorder.writeAppend, hcond, hfull2]
      obtain ⟨rOut, heq, hb, hd, hcat, hmod⟩ := ih fs
        { r with batchBuffer := r.batchBuffer ++ [it.2] }
        hB1 hD (by simp; omega) (fun x hx => hday x (List.mem_cons_of_mem _ hx))
      refine ⟨rOut, ?_, hb, hd, ?_, ?_⟩
      · exact (writeAll_cons_ok env it rest fs fs r _ hw).trans heq
      · rw [hcat]
        simp [List.append_assoc]
      · rw [hmod]
        have h2 : r.batchBuffer.length + 1 + rest.length
            = r.batchBuffer.length + (rest.length + 1) := by omega
        simp only [List.length_append, List.length_cons, List.length_nil]
        rw [h2]

/-- Claim C5: `N` same-day, error-free `Recorder.Write` calls with
batch size `B ≥ 1` pass exactly `⌊N / B⌋ · B` records to the encoder,
in insertion order, leave `N mod B` records in the buffer, and touch
neither the file system nor report an error. -/
theorem claim_C5 (α : Type) (B : Nat) (D instrument dataType filePath : String)
    (env : EncBehavior α) (fs : List String) (items : List (GoTime × α))
    (hB : 1 ≤ B) (henc : ∀ x, env.writeErr x = false)
    (hday : ∀ it ∈ items, goFormatYYYYMMDD (goTimeUTC it.1) = D) :
    ∃ rOut, writeAll env items fs (initRecorder α instrument dataType filePath D B)
        = (rOut, fs, none)
      ∧ rOut.encoded ++ rOut.batchBuffer = items.map Prod.snd
      ∧ rOut.encoded.length = items.length / B * B
      ∧ rOut.batchBuffer.length = items.length % B := by
  obtain ⟨rOut, heq, _hb, _hd, hcat, hmod⟩ :=
    writeAll_sameDay env B D henc items fs (initRecorder α instrument dataType filePath D B)
      rfl rfl (by simpa [initRecorder] using hB) hday
  have hcat2 : rOut.encoded ++ rOut.batchBuffer = items.map Prod.snd := by
    simpa [initRecorder] using hcat
  have hmod2 : rOut.batchBuffer.length = items.length % B := by
    simpa [initRecorder] using hmod
  refine ⟨rOut, heq, hcat2, ?_, hmod2⟩
  have hsum : rOut.encoded.length + rOut.batchBuffer.length = items.length := by
    have := congrArg List.length hcat2
    simpa using this
  have hle : items.length % B ≤ items.length := Nat.mod_le _ _
  have : rOut.encoded.length = items.length - items.length % B := by omega
  rw [this, sub_mod_eq_div_mul]

/-- Concrete encoder behaviour with no failures. -/
def c5Env : EncBehavior String :=
  { writeErr := fun _ => false, stopErr := false, closeErr := false }

/-- 2025-02-19T12:00:00Z. -/
def c5Time : GoTime := { unixSec := 1739966400, offset := 0 }

/-- Five same-day writes. -/
def c5Items : List (GoTime × String) :=
  [(c5Time, "a"), (c5Time, "b"), (c5Time, "c"), (c5Time, "d"), (c5Time, "e")]

/-- Witness for C5: five writes with batch size 2 encode four records
and leave one in the buffer. -/
theorem claim_C5_witness :
    ∃ rOut, writeAll c5Env c5Items ["x"]
        (initRecorder String "BTCUSDT" "trade" "f" "2025-02-19" 2)
        = (rOut, ["x"], none)
      ∧ rOut.encoded ++ rOut.batchBuffer = ["a", "b", "c", "d", "e"]
      ∧ rOut.encoded.length = 5 / 2 * 2
      ∧ rOut.batchBuffer.length = 5 % 2 :=
  claim_C5 String 2 "2025-02-19" "BTCUSDT" "trade" "f" c5Env ["x"] c5Items
    (by decide) (fun _ => rfl) (by decide)

/- ### Claim theorems: recorder open / rotate refusal (C6) and close (C7) -/

/-- A recorder for 2025-02-19 whose file is open: nothing buffered,
footer not yet written, file not closed. -/
def c6Rec : Recorder String :=
  initRecorder String "BTCUSDT" "trade" "BTCUSDT_trade_2025-02-19.parquet" "2025-02-19" 2

/-- A file system where both the current and the next day's target
exist. -/
def c6Fs : List String :=
  ["BTCUSDT_trade_2025-02-19.parquet", "BTCUSDT_trade_2025-02-20.parquet"]

/-- 2025-02-20T00:30:00Z, the day after `c6Rec`'s date. -/
def c6Time : GoTime := { unixSec := 1740011400, offset := 0 }

/-- Counterexample for C6 as stated: at a day boundary whose target
path already exists, `rotate` does return the "already exists" error,
but it has already modified the current file — the footer was written
(`finalized`) and the file was closed, both `false` beforehand — so "no
file is created or modified" fails for the rotate case. -/
theorem claim_C6_counterexample :
    (Recorder.rotate c5Env c6Fs c6Rec c6Time).2.2
        = some "file BTCUSDT_trade_2025-02-20.parquet already exists, not resuming recording"
    ∧ c6Rec.finalized = false ∧ c6Rec.fileClosed = false
    ∧ (Recorder.rotate c5Env c6Fs c6Rec c6Time).1.finalized = true
    ∧ (Recorder.rotate c5Env c6Fs c6Rec c6Time).1.fileClosed = true := by
  decide

/-- Claim C6 (amended): when the target path already exists,
`NewRecorder` fails with the "already exists" error and neither creates
nor modifies any file; `rotate` fails with the same error and creates
no new file, but the current file has by then already been flushed,
finalized and closed. -/
theorem claim_C6 {α : Type} (fs : List String) (instrument dataType : String) (B : Nat)
    (now : GoTime) (env : EncBehavior α) (r : Recorder α) (t : GoTime) :
    (FileExists fs (BuildFileName dataType instrument (goTimeUTC now)) = true →
      (NewRecorder α fs instrument dataType B now).1
          = Except.error ("file " ++ BuildFileName dataType instrument (goTimeUTC now)
              ++ " already exists, not resuming recording")
      ∧ (NewRecorder α fs instrument dataType B now).2 = fs)
    ∧ (FileExists fs (BuildFileName r.dataType r.instrument t) = true →
        (Recorder.rotate env fs r t).2.1 = fs
        ∧ ((∀ x ∈ r.batchBuffer, env.writeErr x = false) → env.stopErr = false →
            env.closeErr = false →
            (Recorder.rotate env fs r t).2.2
                = some ("file " ++ BuildFileName r.dataType r.instrument t
                    ++ " already exists, not resuming recording")
            ∧ (Recorder.rotate env fs r t).1.finalized = true
            ∧ (Recorder.rotate env fs r t).1.fileClosed = true)) := by
  constructor
  · intro h
    constructor
    · simp [NewRecorder, h]
    · simp [NewRecorder, h]
  · intro h
    constructor
    · rcases hfb : Recorder.flushBuffer env r with ⟨r1, e⟩
      cases e with
      | some err => simp [Recorder.rotate, hfb]
      | none =>
        by_cases hs : env.stopErr
        · simp [Recorder.rotate, hfb, hs]
        · by_cases hc : env.closeErr
          · simp [Recorder.rotate, hfb, hs, hc]
          · simp [Recorder.rotate, hfb, hs, hc, h]
    · intro hclean hstop hclose
      have hfb := flushBuffer_clean env r hclean
      refine ⟨?_, ?_, ?_⟩ <;> simp [Recorder.rotate, hfb, hstop, hclose, h]

/-- Witness for C6: the `NewRecorder` part at a concrete existing
target. -/
theorem claim_C6_witness :
    (NewRecorder String c6Fs "BTCUSDT" "trade" 2 c6Time).1
        = Except.error ("file " ++ BuildFileName "trade" "BTCUSDT" (goTimeUTC c6Time)
            ++ " already exists, not resuming recording")
    ∧ (NewRecorder String c6Fs "BTCUSDT" "trade" 2 c6Time).2 = c6Fs :=
  (claim_C6 c6Fs "BTCUSDT" "trade" 2 c6Time c5Env c6Rec c6Time).1 (by decide)

/-- Encoder behaviour where finalization (`pw.WriteStop`) fails. -/
def c7Env : EncBehavior String :=
  { writeErr := fun _ => false, stopErr := true, closeErr := false }

/-- A recorder with an open file and an empty buffer. -/
def c7Rec : Recorder String :=
  initRecorder String "BTCUSDT" "trade" "BTCUSDT_trade_2025-02-19.parquet" "2025-02-19" 2

/-- Claim C7 fails on the code: when `pw.WriteStop` errors,
`Recorder.Close` surfaces the error but returns before
`localFile.Close`, so the file is NOT closed. -/
theorem claim_C7_close_leaks_file :
    (Recorder.Close c7Env c7Rec).2 = some "parquet write stop error"
    ∧ (Recorder.Close c7Env c7Rec).1.fileClosed = false := by
  decide

/- ### Claim theorems: pure formatting (C8, C9) -/

/-- Claim C8: `BuildFileName` is
`<instrument>_<dataType>_<YYYY-MM-DD>.parquet` with the date taken from
`t` converted to UTC; concretely on 2023-10-15T12:34:56Z, including
from a non-UTC location. -/
theorem claim_C8 :
    (∀ (dataType instrument : String) (t : GoTime),
        BuildFileName dataType instrument t
          = instrument ++ "_" ++ dataType ++ "_"
              ++ goFormatYYYYMMDD { unixSec := t.unixSec, offset := 0 } ++ ".parquet")
    ∧ BuildFileName "trade" "BTCUSDT" { unixSec := 1697373296, offset := 0 }
        = "BTCUSDT_trade_2023-10-15.parquet"
    ∧ BuildFileName "trade" "BTCUSDT" { unixSec := 1697373296, offset := 43200 }
        = "BTCUSDT_trade_2023-10-15.parquet" :=
  ⟨fun _ _ _ => rfl, by decide, by decide⟩

/-- Counterexample for C9 as stated: for a timestamp carrying a
non-UTC location (offset 3600 s), `FormatLog` does not render the UTC
date and time of `t`; the source formats `ts` without converting it. -/
theorem claim_C9_counterexample :
    FormatLog "INFO" "msg" { unixSec := 0, offset := 3600 }
      ≠ "[" ++ goFormatDateTime (goTimeUTC { unixSec := 0, offset := 3600 }) ++ "] INFO: msg" := by
  decide

/-- Claim C9 (amended): `FormatLog` renders
`"[YYYY-MM-DD HH:MM:SS] LEVEL: msg"` with `t`'s own wall-clock time
(the location `t` carries); when `t` is already in UTC — as
`Logger.Log` always supplies — this is the UTC rendering. -/
theorem claim_C9 (level message : String) (t : GoTime) :
    FormatLog level message t
        = "[" ++ goFormatDateTime t ++ "] " ++ level ++ ": " ++ message
    ∧ (t.offset = 0 →
        FormatLog level message t
          = "[" ++ goFormatDateTime (goTimeUTC t) ++ "] " ++ level ++ ": " ++ message) := by
  refine ⟨rfl, ?_⟩
  intro h
  cases t with
  | mk s o =>
    have h2 : o = 0 := h
    subst h2
    rfl

/-- Witness for C9 (amended) at a UTC timestamp. -/
theorem claim_C9_witness :
    FormatLog "INFO" "m" { unixSec := 0, offset := 0 }
      = "[" ++ goFormatDateTime (goTimeUTC { unixSec := 0, offset := 0 })
          ++ "] " ++ "INFO" ++ ": " ++ "m" :=
  (claim_C9 "INFO" "m" { unixSec := 0, offset := 0 }).2 rfl

/- ### Claim theorems: snapshot parsing (C10) -/

/-- With every entry of length at least 2, the conversion loop succeeds
and keeps elements 0 and 1 of each entry. -/
lemma convertLevels_ok_of (m : String) (l : List (List String))
    (h : ∀ e ∈ l, 2 ≤ e.length) :
    convertLevels m l
      = Except.ok (l.map fun e => { Price := e.getD 0 "", Quantity := e.getD 1 "" }) := by
  induction l with
  | nil => rfl
  | cons e rest ih =>
    have h1 : ¬ e.length < 2 := by
      have := h e (List.mem_cons_self e rest)
      omega
    simp [convertLevels, h1, ih (fun x hx => h x (List.mem_cons_of_mem _ hx))]

/-- With some entry shorter than 2, the conversion loop fails. -/
lemma convertLevels_err_of (m : String) (l : List (List String))
    (h : ∃ e ∈ l, e.length < 2) :
    isOkB (convertLevels m l) = false := by
  induction l with
  | nil => simp at h
  | cons e rest ih =>
    by_cases h1 : e.length < 2
    · simp [convertLevels, h1, isOkB]
    · obtain ⟨x, hx, hlen⟩ := h
      rcases List.mem_cons.mp hx with rfl | hxr
      · exact absurd hlen h1
      · have hrec := ih ⟨x, hxr, hlen⟩
        simp only [convertLevels, if_neg h1]
        cases hc : convertLevels m rest with
        | error err => rfl
        | ok tail => rw [hc] at hrec; simp [isOkB] at hrec

/-- The conversion loop succeeds exactly when every entry has at least
2 elements. -/
lemma convertLevels_isOk (m : String) (l : List (List String)) :
    isOkB (convertLevels m l) = true ↔ ∀ e ∈ l, 2 ≤ e.length := by
  constructor
  · intro hok
    by_contra hbad
    push_neg at hbad
    obtain ⟨x, hx, hlen⟩ := hbad
    rw [convertLevels_err_of m l ⟨x, hx, by omega⟩] at hok
    cases hok
  · intro h
    rw [convertLevels_ok_of m l h]
    rfl

/-- Claim C10: `parseOrderBookSnapshot` fails exactly when some bid or
ask entry has fewer than 2 elements; entries with 2 or more elements
contribute element 0 as price and element 1 as quantity with extras
ignored; and the websocket-path `PriceLevel` decoder rejects exactly
the arrays whose length is not 2. -/
theorem claim_C10 (resp : orderBookSnapshotResponse) (arr : List String) :
    (isOkB (parseOrderBookSnapshot resp) = true
        ↔ (∀ e ∈ resp.Bids, 2 ≤ e.length) ∧ (∀ e ∈ resp.Asks, 2 ≤ e.length))
    ∧ ((∀ e ∈ resp.Bids, 2 ≤ e.length) → (∀ e ∈ resp.Asks, 2 ≤ e.length) →
        parseOrderBookSnapshot resp
          = Except.ok
              { LastUpdateID := resp.LastUpdateID,
                Bids := resp.Bids.map (fun e => { Price := e.getD 0 "", Quantity := e.getD 1 "" }),
                Asks := resp.Asks.map (fun e => { Price := e.getD 0 "", Quantity := e.getD 1 "" }) })
    ∧ (isOkB (PriceLevel.unmarshalJSON arr) = true ↔ arr.length = 2) := by
  refine ⟨?_, ?_, ?_⟩
  · constructor
    · intro hok
      unfold parseOrderBookSnapshot at hok
      cases hb : convertLevels "malformed bid data" resp.Bids with
      | error e => rw [hb] at hok; simp [isOkB] at hok
      | ok bids =>
        cases ha : convertLevels "malformed ask data" resp.Asks with
        | error e => rw [hb, ha] at hok; simp [isOkB] at hok
        | ok asks =>
          constructor
          · exact (convertLevels_isOk _ _).mp (by rw [hb]; rfl)
          · exact (convertLevels_isOk _ _).mp (by rw [ha]; rfl)
    · intro hall
      unfold parseOrderBookSnapshot
      rw [convertLevels_ok_of _ _ hall.1, convertLevels_ok_of _ _ hall.2]
      rfl
  · intro hb ha
    unfold parseOrderBookSnapshot
    rw [convertLevels_ok_of _ _ hb, convertLevels_ok_of _ _ ha]
  · by_cases h : arr.length = 2
    · simp [PriceLevel.unmarshalJSON, h, isOkB]
    · simp [PriceLevel.unmarshalJSON, h, isOkB]

/-- The spec's concrete parse scenario, with an extra third element in
the bid entry to exhibit that extras are ignored by the REST path. -/
def c10Resp : orderBookSnapshotResponse :=
  { LastUpdateID := 12345, Bids := [["100.0", "1.0", "extra"]], Asks := [["101.0", "2.0"]] }

/-- Witness for C10: the concrete snapshot parses with extras ignored,
and the strict websocket-path decoder rejects a length-3 array. -/
theorem claim_C10_witness :
    parseOrderBookSnapshot c10Resp
        = Except.ok
            { LastUpdateID := 12345,
              Bids := [{ Price := "100.0", Quantity := "1.0" }],
              Asks := [{ Price := "101.0", Quantity := "2.0" }] }
    ∧ isOkB (PriceLevel.unmarshalJSON ["1", "2", "3"]) = false :=
  ⟨by
    have h := (claim_C10 c10Resp ["1", "2", "3"]).2.1 (by decide) (by decide)
    simpa using h,
   by decide⟩
